import Mathlib

/-!
# Verification of the `rt` traceroute core (src/main.go)

This file shallowly embeds the core of the `rt` program: the packet codec
(`newProbeInfo`, `getTracePacketData`), the per-probe send path, and the
trace controller loop (`startTrace`), and proves the frozen claims about it.

Modelling conventions:
* Go `int` / `int32` / `int64` values are modelled as `Int`.  Wraparound of
  64-bit counters is not modelled: it would require more than `2 ^ 63`
  loop iterations, unreachable in any execution of the program.
* Bytes are modelled as `Nat` (the program only reads bytes, never
  overflows them).
* Wall-clock time is abstracted away: the controller records *that* a
  latency was measured and printed, not its numeric value.
* The environment (the network, the OS socket layer and the concurrent
  ICMP listener) is modelled as an oracle `env : Nat → Outcome` giving the
  outcome of each successive probe attempt: `connectUDP` failure, `Write`
  failure, a timeout of the 5-second timer, or a `probeInfo` delivered on
  `probChan`.  This matches the code's one-outstanding-probe discipline:
  `startTrace` sends one probe and then blocks on `probChan` vs. the timer.
* Each iteration of the inner probe loop of `startTrace` (src/main.go
  lines 110-149) produces one `ProbeRec` describing everything observable
  that the iteration did; the controller state threads `port`, `seqNum`
  and `done` exactly as the Go code does.
-/

/-- `dataBytesLen` constant, src/main.go line 22: bytes of UDP payload. -/
def dataBytesLen : Nat := 16

/-- `readBufSize` constant, src/main.go line 23: ICMP read buffer size. -/
def readBufSize : Nat := 1024

/-- `probeTimeout` constant, src/main.go line 24: seconds to wait for the
response to a probe before it times out. -/
def probeTimeout : Nat := 5

/-- An IPv4 address as four bytes, the result of `net.IPv4(a, b, c, d)`
(src/main.go line 173). -/
structure IPv4 where
  a : Nat
  b : Nat
  c : Nat
  d : Nat
deriving DecidableEq

/-- `net.IP.String()` on an IPv4 address: dotted-quad decimal text. -/
def ipString (ip : IPv4) : String :=
  toString ip.a ++ "." ++ toString ip.b ++ "." ++ toString ip.c ++ "." ++ toString ip.d

/-- The `probeInfo` struct, src/main.go lines 71-76: the decoded inbound
ICMP datagram. -/
structure probeInfo where
  routerIP : IPv4
  routerName : String
  icmpType : Nat
  icmpCode : Nat
deriving DecidableEq

/-- The `tracePacket` struct, src/main.go lines 65-69. -/
structure tracePacket where
  seqNum : Int
  ttl : Int
  ts : Int
deriving DecidableEq

/-- `isPortUnreachable`, src/main.go lines 200-205: ICMP type 3 code 3. -/
def isPortUnreachable (pInfo : probeInfo) : Bool :=
  if pInfo.icmpType = 3 ∧ pInfo.icmpCode = 3 then true else false

/-- `getTracePacketData`, src/main.go lines 207-219: allocates
`dataBytesLen` zero bytes, sets bytes 0-4 to 1,2,3,4,5 and returns the
buffer.  The `tracePacket` argument is accepted but (by the code: the body
never reads `data`) not used. -/
def getTracePacketData (_data : tracePacket) : List Nat :=
  ((((((List.replicate dataBytesLen 0).set 0 1).set 1 2).set 2 3).set 3 4).set 4 5)

/-- `printRouterIP`, src/main.go lines 189-198: the pair of strings the
function prints: first the router name if non-empty, otherwise the
address; then (parenthesised, always) the address. -/
def printRouterIP (pInfo : probeInfo) : String × String :=
  (if pInfo.routerName = "" then ipString pInfo.routerIP else pInfo.routerName,
   ipString pInfo.routerIP)

/-- `newProbeInfo`, src/main.go lines 171-187.  `buf` is the raw datagram
byte slice; `lookup` models `net.LookupAddr` (its error is discarded by
the code, so a failed lookup is the empty list).  The Go function indexes
`buf[12]..buf[15]`, `buf[20]`, `buf[21]` without any length check; a slice
shorter than 22 bytes makes it panic with an index-out-of-range runtime
error, which nothing in the program recovers from.  That panic is modelled
as `none`; on a buffer of length at least 22 the function always succeeds. -/
def newProbeInfo (lookup : String → List String) (buf : List Nat) : Option probeInfo :=
  if h : 22 ≤ buf.length then
    let routerIP : IPv4 :=
      ⟨buf.get ⟨12, by omega⟩, buf.get ⟨13, by omega⟩,
       buf.get ⟨14, by omega⟩, buf.get ⟨15, by omega⟩⟩
    let icmpType : Nat := buf.get ⟨20, by omega⟩
    let icmpCode : Nat := buf.get ⟨21, by omega⟩
    let names := lookup (ipString routerIP)
    let routerName : String :=
      match names with
      | [] => ""
      | n :: _ => n
    some { routerIP := routerIP, routerName := routerName,
           icmpType := icmpType, icmpCode := icmpCode }
  else
    none

/-- The buffer that `listenICMP` (src/main.go lines 89-96) hands to
`newProbeInfo` when a datagram `dgram` is read: a fresh zero-initialised
`readBufSize`-byte buffer whose first `min dgram.length readBufSize` bytes
are the datagram (`conn.Read(buf)`); the read count is discarded and the
WHOLE buffer is passed on. -/
def icmpReadBuffer (dgram : List Nat) : List Nat :=
  (dgram ++ List.replicate readBufSize 0).take readBufSize

/-- The command-line configuration, src/main.go lines 15-19: `-d`, `-f`,
`-m`, `-p`, `-q`.  There is no timeout option. -/
structure TraceConfig where
  debug : Bool
  startTTL : Int
  maxHops : Int
  basePort : Int
  probesPerHop : Int
deriving DecidableEq

/-- The outcome of one probe attempt (one iteration of the inner loop of
`startTrace`), decided by the environment: `connectUDP` returns an error
(src/main.go line 111); `udpConn.Write` returns an error (line 127); the
5-second timer fires (line 137); or a decoded `probeInfo` arrives on
`probChan` (line 135). -/
inductive Outcome where
  | connectError
  | sendError
  | timeout
  | response (info : probeInfo)
deriving DecidableEq

/-- Everything observable done by one iteration of the inner probe loop of
`startTrace` (src/main.go lines 110-149):
* `ttl`, `pro` — the loop counters;
* `dialPort` — the port passed to `connectUDP` (line 111);
* `outcome` — the environment's answer for the attempt;
* `builtSeq` — `seqNum` of the `tracePacket` built at lines 119-125, when
  one was built (`connectUDP` succeeded);
* `sentPort` — the destination port consumed by the attempt (the port the
  built packet is written to), when one was consumed;
* `waited` — the duration in seconds of the `time.NewTimer` the iteration
  blocked on (line 132), when it reached that point;
* `printedRouter` — the identity pair printed by `printRouterIP`
  (line 143), when it was printed;
* `printedStar` — whether the `*` timeout marker was printed (line 138);
* `printedLatency` — whether a latency measurement was printed (line 145);
* `closed` — whether the iteration closed its UDP socket.  The Go code
  contains no `Close` call anywhere (src/main.go lines 101-169), so the
  construction below never sets this field to `true`. -/
structure ProbeRec where
  ttl : Int
  pro : Nat
  dialPort : Int
  outcome : Outcome
  builtSeq : Option Int
  sentPort : Option Int
  waited : Option Nat
  printedRouter : Option (String × String)
  printedStar : Bool
  printedLatency : Bool
  closed : Bool
deriving DecidableEq

/-- State of `startTrace` (src/main.go lines 101-152): `port` and `seqNum`
are the mutable locals of lines 102-103, `done` the flag of line 104,
`attempt` counts probe attempts to index the environment oracle, and
`recs` accumulates the record of every attempt so far. -/
structure TState where
  port : Int
  seqNum : Int
  done : Bool
  attempt : Nat
  recs : List ProbeRec
deriving DecidableEq

/-- Whether an outcome is a `probChan` response satisfying
`isPortUnreachable` — the condition under which line 147 sets `done`. -/
def unreachOutcome (oc : Outcome) : Bool :=
  match oc with
  | .response info => isPortUnreachable info
  | _ => false

/-- How far an attempt advances `seqNum` and `port`: an attempt whose
`connectUDP` fails hits `continue` at line 114 before the increments at
lines 119-120; every other attempt increments both exactly once. -/
def probeAdv (oc : Outcome) : Nat :=
  match oc with
  | .connectError => 0
  | _ => 1

/-- The record of one iteration of the inner loop of `startTrace` with
outcome `oc`, entered with loop counters `ttl`, `pro` and state values
`port`, `seqNum`.  Field by field against src/main.go lines 110-149:
* `connectError`: line 113 logs, line 114 `continue`s — nothing is built,
  sent, waited for or printed.
* `sendError`: lines 119-120 run (`seqNum+1`, port consumed), the packet
  of lines 121-125 is built, `Write` fails, line 129 logs, line 130
  `continue`s before the timer.
* `timeout`: the timer of line 132 fires, line 138 prints `*`.
* `response info`: line 143 prints the router identity when `pro == 0`,
  line 145 prints the latency; line 147 checks port-unreachable.
No branch closes the UDP socket: the program has no `Close` call. -/
def probeRec (oc : Outcome) (ttl : Int) (pro : Nat) (port seqNum : Int) : ProbeRec :=
  match oc with
  | .connectError =>
      { ttl := ttl, pro := pro, dialPort := port, outcome := .connectError,
        builtSeq := none, sentPort := none, waited := none,
        printedRouter := none, printedStar := false, printedLatency := false,
        closed := false }
  | .sendError =>
      { ttl := ttl, pro := pro, dialPort := port, outcome := .sendError,
        builtSeq := some (seqNum + 1), sentPort := some port, waited := none,
        printedRouter := none, printedStar := false, printedLatency := false,
        closed := false }
  | .timeout =>
      { ttl := ttl, pro := pro, dialPort := port, outcome := .timeout,
        builtSeq := some (seqNum + 1), sentPort := some port,
        waited := some probeTimeout,
        printedRouter := none, printedStar := true, printedLatency := false,
        closed := false }
  | .response info =>
      { ttl := ttl, pro := pro, dialPort := port, outcome := .response info,
        builtSeq := some (seqNum + 1), sentPort := some port,
        waited := some probeTimeout,
        printedRouter := if pro = 0 then some (printRouterIP info) else none,
        printedStar := false, printedLatency := true,
        closed := false }

/-- One iteration of the inner probe loop of `startTrace` (src/main.go
lines 110-149) from state `s` at loop counters `ttl`, `pro`.  The
environment decides the outcome of attempt number `s.attempt`; `seqNum`
and `port` advance per `probeAdv`, `done` is set by line 147 exactly when
the outcome is a port-unreachable response, and the iteration's record is
appended. -/
def runProbe (env : Nat → Outcome) (ttl : Int) (pro : Nat) (s : TState) : TState :=
  let oc := env s.attempt
  { port := s.port + probeAdv oc,
    seqNum := s.seqNum + probeAdv oc,
    done := s.done || unreachOutcome oc,
    attempt := s.attempt + 1,
    recs := s.recs ++ [probeRec oc ttl pro s.port s.seqNum] }

/-- The inner loop `for pro := 0; pro < *probesF; pro++` of `startTrace`
(src/main.go line 110), with `n` iterations left and `pro` the current
counter value.  Note the loop does NOT stop early when `done` is set:
line 147 only sets the flag, which is tested at line 106 of the OUTER
loop. -/
def runProbes (env : Nat → Outcome) (ttl : Int) : Nat → Nat → TState → TState
  | 0, _, s => s
  | n + 1, pro, s => runProbes env ttl n (pro + 1) (runProbe env ttl pro s)

/-- One full hop of `startTrace`: the body of the outer loop at a given
`ttl` (src/main.go lines 109-150, the hop-number print and trailing
newline not being modelled).  The inner loop runs
`max 0 probesPerHop` times. -/
def runHop (cfg : TraceConfig) (env : Nat → Outcome) (ttl : Int) (s : TState) : TState :=
  runProbes env ttl cfg.probesPerHop.toNat 0 s

/-- The outer loop `for ttl := *ttlF; ttl <= *hopsF; ttl++` of
`startTrace` (src/main.go lines 105-151): at each iteration `done` is
tested first (line 106-108) and, when clear, the hop at the current `ttl`
runs.  `fuel` is the number of remaining values of `ttl` up to and
including `maxHops`. -/
def runHops (cfg : TraceConfig) (env : Nat → Outcome) : Nat → Int → TState → TState
  | 0, _, s => s
  | fuel + 1, ttl, s =>
      if s.done then s
      else runHops cfg env fuel (ttl + 1) (runHop cfg env ttl s)

/-- The initial state of `startTrace` (src/main.go lines 102-104):
`port := *portF`, `seqNum` zero, `done` false, nothing recorded. -/
def initState (cfg : TraceConfig) : TState :=
  { port := cfg.basePort, seqNum := 0, done := false, attempt := 0, recs := [] }

/-- `startTrace`, src/main.go lines 101-152: run the outer loop for every
`ttl` from `startTTL` to `maxHops` inclusive. -/
def startTrace (cfg : TraceConfig) (env : Nat → Outcome) : TState :=
  runHops cfg env (cfg.maxHops - cfg.startTTL + 1).toNat cfg.startTTL (initState cfg)

/-- Whether a recorded attempt received a port-unreachable response. -/
def unreachRec (r : ProbeRec) : Bool :=
  unreachOutcome r.outcome

/-- Whether a recorded attempt received any response at all. -/
def isResponse (r : ProbeRec) : Bool :=
  match r.outcome with
  | .response _ => true
  | _ => false

/-- The destination ports consumed by the probes of a record list, in
order. -/
def sentPorts (l : List ProbeRec) : List Int :=
  l.filterMap (fun r => r.sentPort)

/-- The sequence numbers of the `tracePacket`s built by a record list, in
order. -/
def builtSeqs (l : List ProbeRec) : List Int :=
  l.filterMap (fun r => r.builtSeq)

/-- How many recorded attempts were made at TTL `t`. -/
def countTTL (l : List ProbeRec) (t : Int) : Nat :=
  (l.filter (fun r => decide (r.ttl = t))).length

/-- Whether some recorded attempt at a TTL strictly below `t` received a
port-unreachable response (the destination-reached condition fired on an
earlier hop). -/
def doneBefore (l : List ProbeRec) (t : Int) : Bool :=
  l.any (fun r => decide (r.ttl < t) && unreachRec r)

/-- Refinement relation between two controller states: `s2` extends `s1`
by `k` further probe attempts of which the ones that consumed a port
consumed exactly `s1.port, s1.port + 1, ...` and carried sequence numbers
exactly `s1.seqNum + 1, s1.seqNum + 2, ...`. -/
def PortSeqExtend (s1 s2 : TState) : Prop :=
  ∃ new k, s2.recs = s1.recs ++ new ∧
    sentPorts new = (List.range k).map (fun i : Nat => s1.port + (i : Int)) ∧
    builtSeqs new = (List.range k).map (fun i : Nat => s1.seqNum + 1 + (i : Int)) ∧
    s2.port = s1.port + (k : Int) ∧
    s2.seqNum = s1.seqNum + (k : Int)

/-- Concrete configuration: `-f 1 -m 1 -p 34500 -q 2`, for the C1
counterexample run. -/
def cfgC1 : TraceConfig :=
  { debug := false, startTTL := 1, maxHops := 1, basePort := 34500, probesPerHop := 2 }

/-- Environment for the C1 counterexample run: the first probe of the hop
times out, the second receives a response from 10.0.0.1 (unresolved name,
ICMP type 3 code 3). -/
def envC1 : Nat → Outcome :=
  fun n => if n = 0 then .timeout
           else .response { routerIP := ⟨10, 0, 0, 1⟩, routerName := "",
                            icmpType := 3, icmpCode := 3 }

/-- Environment in which every probe receives a response from 10.0.0.1
with ICMP type 3 code 3 (port unreachable). -/
def envAllUnreach : Nat → Outcome :=
  fun _ => .response { routerIP := ⟨10, 0, 0, 1⟩, routerName := "",
                       icmpType := 3, icmpCode := 3 }

/-- Environment in which every probe times out. -/
def envAllTimeout : Nat → Outcome :=
  fun _ => .timeout

/-- Concrete configuration `-f 1 -m 1 -p 34500 -q 2` for the C3 run. -/
def cfgC3 : TraceConfig :=
  { debug := false, startTTL := 1, maxHops := 1, basePort := 34500, probesPerHop := 2 }

/-- Concrete configuration `-f 1 -m 3 -p 34500 -q 1` (the spec's scenario:
`maxHops=3`, `probesPerHop=1`). -/
def cfgScenario : TraceConfig :=
  { debug := false, startTTL := 1, maxHops := 3, basePort := 34500, probesPerHop := 1 }

/-- Concrete configuration `-f 1 -m 2 -p 34500 -q 2`. -/
def cfgTwoHops : TraceConfig :=
  { debug := false, startTTL := 1, maxHops := 2, basePort := 34500, probesPerHop := 2 }

/-- Concrete configuration `-f 1 -m 1 -p 34500 -q 1`. -/
def cfgOne : TraceConfig :=
  { debug := false, startTTL := 1, maxHops := 1, basePort := 34500, probesPerHop := 1 }

/-- Environment in which every probe receives a response from 10.0.0.1
with ICMP type 11 code 0 (time exceeded: an intermediate hop). -/
def envHopReply : Nat → Outcome :=
  fun _ => .response { routerIP := ⟨10, 0, 0, 1⟩, routerName := "",
                       icmpType := 11, icmpCode := 0 }

/-- A reverse-lookup oracle that never resolves any name
(`net.LookupAddr` failing or returning no names). -/
def noLookup : String → List String :=
  fun _ => []

/-- A malformed inbound datagram of only 10 bytes — shorter than the 22
bytes `newProbeInfo` reads unconditionally. -/
def shortDgram : List Nat :=
  [1, 2, 3, 4, 5, 6, 7, 8, 9, 10]

/-- A 22-byte raw datagram with source address 172.16.5.9 at bytes 12-15
and ICMP type 11, code 0 at bytes 20-21. -/
def dgram22 : List Nat :=
  [69, 0, 0, 56, 0, 0, 0, 0, 64, 1, 0, 0, 172, 16, 5, 9, 192, 168, 0, 7, 11, 0]

/-- A time-exceeded reply (ICMP type 11 code 0) from 10.0.0.1 with no
resolved name. -/
def infoHop : probeInfo :=
  { routerIP := ⟨10, 0, 0, 1⟩, routerName := "", icmpType := 11, icmpCode := 0 }

/-- The single record of the run `startTrace cfgOne envHopReply`: probe 0
of hop 1, answered by `infoHop`. -/
def recRespW : ProbeRec :=
  probeRec (.response infoHop) 1 0 34500 0

/-- The single record of the run `startTrace cfgOne envAllTimeout`:
probe 0 of hop 1, timed out. -/
def recTimeoutW : ProbeRec :=
  probeRec .timeout 1 0 34500 0

/-! ## Basic facts about one probe attempt -/

theorem probeRec_ttl (oc : Outcome) (ttl : Int) (pro : Nat) (p q : Int) :
    (probeRec oc ttl pro p q).ttl = ttl := by
  cases oc <;> rfl

theorem probeRec_pro (oc : Outcome) (ttl : Int) (pro : Nat) (p q : Int) :
    (probeRec oc ttl pro p q).pro = pro := by
  cases oc <;> rfl

theorem unreachRec_probeRec (oc : Outcome) (ttl : Int) (pro : Nat) (p q : Int) :
    unreachRec (probeRec oc ttl pro p q) = unreachOutcome oc := by
  cases oc <;> rfl

theorem sentPorts_probeRec (oc : Outcome) (ttl : Int) (pro : Nat) (p q : Int) :
    sentPorts [probeRec oc ttl pro p q] =
      (List.range (probeAdv oc)).map (fun i : Nat => p + (i : Int)) := by
  cases oc <;> simp [sentPorts, probeRec, probeAdv, List.range_succ]

theorem builtSeqs_probeRec (oc : Outcome) (ttl : Int) (pro : Nat) (p q : Int) :
    builtSeqs [probeRec oc ttl pro p q] =
      (List.range (probeAdv oc)).map (fun i : Nat => q + 1 + (i : Int)) := by
  cases oc <;> simp [builtSeqs, probeRec, probeAdv, List.range_succ]

theorem runProbe_recs (env : Nat → Outcome) (ttl : Int) (pro : Nat) (s : TState) :
    (runProbe env ttl pro s).recs =
      s.recs ++ [probeRec (env s.attempt) ttl pro s.port s.seqNum] :=
  rfl

theorem runProbe_done (env : Nat → Outcome) (ttl : Int) (pro : Nat) (s : TState) :
    (runProbe env ttl pro s).done = (s.done || unreachOutcome (env s.attempt)) :=
  rfl

/-! ## Counting and splitting helpers -/

theorem sentPorts_append (l1 l2 : List ProbeRec) :
    sentPorts (l1 ++ l2) = sentPorts l1 ++ sentPorts l2 := by
  simp [sentPorts, List.filterMap_append]

theorem builtSeqs_append (l1 l2 : List ProbeRec) :
    builtSeqs (l1 ++ l2) = builtSeqs l1 ++ builtSeqs l2 := by
  simp [builtSeqs, List.filterMap_append]

theorem countTTL_append (l1 l2 : List ProbeRec) (t : Int) :
    countTTL (l1 ++ l2) t = countTTL l1 t + countTTL l2 t := by
  simp [countTTL, List.filter_append]

theorem countTTL_eq_zero {l : List ProbeRec} {t : Int} (h : ∀ r ∈ l, r.ttl ≠ t) :
    countTTL l t = 0 := by
  rw [countTTL, List.filter_eq_nil_iff.mpr (fun r hr => by simpa using h r hr)]
  rfl

theorem countTTL_eq_length {l : List ProbeRec} {t : Int} (h : ∀ r ∈ l, r.ttl = t) :
    countTTL l t = l.length := by
  rw [countTTL, List.filter_eq_self.mpr (fun r hr => by simpa using h r hr)]

theorem doneBefore_eq_false {l : List ProbeRec} {t : Int}
    (h : ∀ r ∈ l, ¬(r.ttl < t ∧ unreachRec r = true)) : doneBefore l t = false := by
  apply List.any_eq_false.mpr
  intro r hr
  have := h r hr
  simp only [Bool.and_eq_true, decide_eq_true_eq]
  tauto

theorem range_map_add_int (p : Int) (k1 k2 : Nat) :
    (List.range (k1 + k2)).map (fun i : Nat => p + (i : Int)) =
      (List.range k1).map (fun i : Nat => p + (i : Int)) ++
        (List.range k2).map (fun i : Nat => p + (k1 : Int) + (i : Int)) := by
  rw [List.range_add, List.map_append, List.map_map]
  congr 1
  apply List.map_congr_left
  intro i _
  simp only [Function.comp]
  push_cast
  ring

theorem pairwise_lt_range_map (p : Int) (k : Nat) :
    List.Pairwise (fun x y => x < y) ((List.range k).map (fun i : Nat => p + (i : Int))) := by
  refine List.Pairwise.map _ ?_ (List.pairwise_lt_range k)
  intro x y hxy
  omega

/-! ## The port/sequence-number bookkeeping invariant -/

theorem portSeqExtend_refl (s : TState) : PortSeqExtend s s := by
  refine ⟨[], 0, ?_, ?_, ?_, ?_, ?_⟩ <;> simp [sentPorts, builtSeqs]

theorem portSeqExtend_trans {s1 s2 s3 : TState}
    (h12 : PortSeqExtend s1 s2) (h23 : PortSeqExtend s2 s3) : PortSeqExtend s1 s3 := by
  obtain ⟨n1, k1, hr1, hp1, hb1, hP1, hQ1⟩ := h12
  obtain ⟨n2, k2, hr2, hp2, hb2, hP2, hQ2⟩ := h23
  refine ⟨n1 ++ n2, k1 + k2, ?_, ?_, ?_, ?_, ?_⟩
  · rw [hr2, hr1, List.append_assoc]
  · rw [sentPorts_append, hp1, hp2, hP1, range_map_add_int]
  · rw [builtSeqs_append, hb1, hb2, hQ1, range_map_add_int]
    congr 1
    apply List.map_congr_left
    intro i _
    ring
  · rw [hP2, hP1]
    push_cast
    ring
  · rw [hQ2, hQ1]
    push_cast
    ring

theorem portSeqExtend_runProbe (env : Nat → Outcome) (ttl : Int) (pro : Nat) (s : TState) :
    PortSeqExtend s (runProbe env ttl pro s) := by
  refine ⟨[probeRec (env s.attempt) ttl pro s.port s.seqNum], probeAdv (env s.attempt),
    rfl, ?_, ?_, rfl, rfl⟩
  · exact sentPorts_probeRec (env s.attempt) ttl pro s.port s.seqNum
  · exact builtSeqs_probeRec (env s.attempt) ttl pro s.port s.seqNum

theorem portSeqExtend_runProbes (env : Nat → Outcome) (ttl : Int) :
    ∀ (n pro : Nat) (s : TState), PortSeqExtend s (runProbes env ttl n pro s) := by
  intro n
  induction n with
  | zero => intro pro s; exact portSeqExtend_refl s
  | succ n ih =>
      intro pro s
      exact portSeqExtend_trans (portSeqExtend_runProbe env ttl pro s)
        (ih (pro + 1) (runProbe env ttl pro s))

theorem portSeqExtend_runHops (cfg : TraceConfig) (env : Nat → Outcome) :
    ∀ (fuel : Nat) (ttl : Int) (s : TState), PortSeqExtend s (runHops cfg env fuel ttl s) := by
  intro fuel
  induction fuel with
  | zero => intro ttl s; exact portSeqExtend_refl s
  | succ fuel ih =>
      intro ttl s
      show PortSeqExtend s
        (if s.done then s else runHops cfg env fuel (ttl + 1) (runHop cfg env ttl s))
      by_cases h : s.done
      · rw [if_pos h]; exact portSeqExtend_refl s
      · rw [if_neg h]
        exact portSeqExtend_trans
          (portSeqExtend_runProbes env ttl cfg.probesPerHop.toNat 0 s)
          (ih (ttl + 1) (runHop cfg env ttl s))

/-! ## Shape of the inner probe loop and the outer hop loop -/

theorem runProbes_shape (env : Nat → Outcome) (ttl : Int) :
    ∀ (n pro : Nat) (s : TState), ∃ new : List ProbeRec,
      (runProbes env ttl n pro s).recs = s.recs ++ new ∧
      new.length = n ∧
      (∀ r ∈ new, r.ttl = ttl) ∧
      (runProbes env ttl n pro s).done = (s.done || new.any unreachRec) := by
  intro n
  induction n with
  | zero =>
      intro pro s
      exact ⟨[], by simp [runProbes], by simp, by simp, by simp [runProbes]⟩
  | succ n ih =>
      intro pro s
      obtain ⟨new1, h1, h2, h3, h4⟩ := ih (pro + 1) (runProbe env ttl pro s)
      refine ⟨probeRec (env s.attempt) ttl pro s.port s.seqNum :: new1, ?_, ?_, ?_, ?_⟩
      · show (runProbes env ttl n (pro + 1) (runProbe env ttl pro s)).recs = _
        rw [h1, runProbe_recs]
        simp
      · simp [h2]
      · intro r hr
        rcases List.mem_cons.mp hr with h | h
        · rw [h]; exact probeRec_ttl (env s.attempt) ttl pro s.port s.seqNum
        · exact h3 r h
      · show (runProbes env ttl n (pro + 1) (runProbe env ttl pro s)).done = _
        rw [h4, runProbe_done, List.any_cons, unreachRec_probeRec, Bool.or_assoc]

theorem runHop_shape (cfg : TraceConfig) (env : Nat → Outcome) (ttl : Int) (s : TState) :
    ∃ new : List ProbeRec,
      (runHop cfg env ttl s).recs = s.recs ++ new ∧
      new.length = cfg.probesPerHop.toNat ∧
      (∀ r ∈ new, r.ttl = ttl) ∧
      (runHop cfg env ttl s).done = (s.done || new.any unreachRec) :=
  runProbes_shape env ttl cfg.probesPerHop.toNat 0 s

theorem runHops_recsBound (cfg : TraceConfig) (env : Nat → Outcome) :
    ∀ (fuel : Nat) (ttl : Int) (s : TState),
      ∃ ext : List ProbeRec,
        (runHops cfg env fuel ttl s).recs = s.recs ++ ext ∧
        ∀ r ∈ ext, ttl ≤ r.ttl ∧ r.ttl < ttl + (fuel : Int) := by
  intro fuel
  induction fuel with
  | zero =>
      intro ttl s
      exact ⟨[], by simp [runHops], by simp⟩
  | succ fuel ih =>
      intro ttl s
      show ∃ ext,
        (if s.done then s else runHops cfg env fuel (ttl + 1) (runHop cfg env ttl s)).recs =
          s.recs ++ ext ∧ _
      by_cases h : s.done
      · rw [if_pos h]
        exact ⟨[], by simp, by simp⟩
      · rw [if_neg h]
        obtain ⟨new, hn1, hn2, hn3, hn4⟩ := runHop_shape cfg env ttl s
        obtain ⟨ext, he1, he2⟩ := ih (ttl + 1) (runHop cfg env ttl s)
        refine ⟨new ++ ext, ?_, ?_⟩
        · rw [he1, hn1, List.append_assoc]
        · intro r hr
          rcases List.mem_append.mp hr with h1 | h1
          · have := hn3 r h1
            constructor
            · omega
            · push_cast
              omega
          · have := he2 r h1
            push_cast at this ⊢
            omega

theorem runHops_doneInv (cfg : TraceConfig) (env : Nat → Outcome) :
    ∀ (fuel : Nat) (ttl : Int) (s : TState),
      s.done = s.recs.any unreachRec →
      (runHops cfg env fuel ttl s).done = (runHops cfg env fuel ttl s).recs.any unreachRec := by
  intro fuel
  induction fuel with
  | zero => intro ttl s hd; exact hd
  | succ fuel ih =>
      intro ttl s hd
      show (if s.done then s else runHops cfg env fuel (ttl + 1) (runHop cfg env ttl s)).done =
        (if s.done then s
         else runHops cfg env fuel (ttl + 1) (runHop cfg env ttl s)).recs.any unreachRec
      by_cases h : s.done
      · rw [if_pos h]; exact hd
      · rw [if_neg h]
        apply ih
        obtain ⟨new, hn1, hn2, hn3, hn4⟩ := runHop_shape cfg env ttl s
        rw [hn4, hn1, List.any_append, hd]

/-- How many attempts the controller makes at each TTL value within reach
of the loop: exactly `probesPerHop` when no earlier hop received a
port-unreachable response, none afterwards. -/
theorem runHops_count (cfg : TraceConfig) (env : Nat → Outcome) :
    ∀ (fuel : Nat) (ttl : Int) (s : TState),
      (∀ r ∈ s.recs, r.ttl < ttl) →
      s.done = s.recs.any unreachRec →
      ∀ t : Int, ttl ≤ t → t < ttl + (fuel : Int) →
        countTTL (runHops cfg env fuel ttl s).recs t =
          if doneBefore (runHops cfg env fuel ttl s).recs t then 0
          else cfg.probesPerHop.toNat := by
  intro fuel
  induction fuel with
  | zero =>
      intro ttl s hs hd t h1 h2
      push_cast at h2
      omega
  | succ fuel ih =>
      intro ttl s hs hd t h1 h2
      have harrpos : s.done = true → runHops cfg env (fuel + 1) ttl s = s := by
        intro h
        show (if s.done then s else _) = s
        rw [if_pos h]
      have harrneg : s.done = false →
          runHops cfg env (fuel + 1) ttl s =
            runHops cfg env fuel (ttl + 1) (runHop cfg env ttl s) := by
        intro h
        show (if s.done then s else _) = _
        rw [h]
        simp
      by_cases hdn : s.done = true
      · rw [harrpos hdn]
        have hany : s.recs.any unreachRec = true := by rw [← hd]; exact hdn
        obtain ⟨r, hr, hur⟩ := List.any_eq_true.mp hany
        have hdb : doneBefore s.recs t = true := by
          apply List.any_eq_true.mpr
          refine ⟨r, hr, ?_⟩
          have := hs r hr
          simp only [Bool.and_eq_true, decide_eq_true_eq]
          exact ⟨by omega, hur⟩
        rw [hdb]
        simp only [if_true]
        exact countTTL_eq_zero (fun r2 hr2 => by have := hs r2 hr2; omega)
      · have hdnf : s.done = false := by revert hdn; cases s.done <;> simp
        rw [harrneg hdnf]
        have hanyf : s.recs.any unreachRec = false := by rw [← hd]; exact hdnf
        obtain ⟨new, hn1, hn2, hn3, hn4⟩ := runHop_shape cfg env ttl s
        have hd1 : (runHop cfg env ttl s).done = (runHop cfg env ttl s).recs.any unreachRec := by
          rw [hn4, hn1, List.any_append, hanyf, hdnf]
        have hs1 : ∀ r ∈ (runHop cfg env ttl s).recs, r.ttl < ttl + 1 := by
          rw [hn1]
          intro r hr
          rcases List.mem_append.mp hr with h | h
          · have := hs r h; omega
          · have := hn3 r h; omega
        rcases eq_or_lt_of_le h1 with heq | hlt
        · obtain ⟨ext, he1, he2⟩ := runHops_recsBound cfg env fuel (ttl + 1) (runHop cfg env ttl s)
          rw [he1, hn1]
          subst heq
          have c1 : countTTL s.recs ttl = 0 :=
            countTTL_eq_zero (fun r hr => by have := hs r hr; omega)
          have c2 : countTTL new ttl = new.length :=
            countTTL_eq_length (fun r hr => hn3 r hr)
          have c3 : countTTL ext ttl = 0 :=
            countTTL_eq_zero (fun r hr => by have := (he2 r hr).1; omega)
          have hnone : ∀ r ∈ s.recs, unreachRec r = false := by
            intro r hr
            have := List.any_eq_false.mp hanyf r hr
            revert this
            cases unreachRec r <;> simp
          have hdb : doneBefore (s.recs ++ new ++ ext) ttl = false := by
            apply doneBefore_eq_false
            intro r hr hcon
            obtain ⟨hlt2, hur2⟩ := hcon
            rcases List.mem_append.mp hr with h | h
            · rcases List.mem_append.mp h with h5 | h5
              · rw [hnone r h5] at hur2
                exact Bool.false_ne_true hur2
              · have := hn3 r h5; omega
            · have := (he2 r h).1; omega
          rw [List.append_assoc] at hdb
          rw [List.append_assoc, hdb]
          simp only [Bool.false_eq_true, if_false]
          rw [← List.append_assoc, countTTL_append, countTTL_append, c1, c2, c3, hn2]
          omega
        · exact ih (ttl + 1) (runHop cfg env ttl s) hs1 hd1 t (by omega)
            (by push_cast at h2 ⊢; omega)

/-- Once a hop has received a port-unreachable response, no probe is ever
attempted at a strictly larger TTL. -/
theorem runHops_stop (cfg : TraceConfig) (env : Nat → Outcome) :
    ∀ (fuel : Nat) (ttl : Int) (s : TState),
      (∀ r ∈ s.recs, r.ttl < ttl) →
      s.done = s.recs.any unreachRec →
      (∀ t : Int, (∃ r ∈ s.recs, r.ttl = t ∧ unreachRec r = true) →
        ∀ r2 ∈ s.recs, r2.ttl ≤ t) →
      ∀ t : Int, (∃ r ∈ (runHops cfg env fuel ttl s).recs, r.ttl = t ∧ unreachRec r = true) →
        ∀ r2 ∈ (runHops cfg env fuel ttl s).recs, r2.ttl ≤ t := by
  intro fuel
  induction fuel with
  | zero => intro ttl s hs hd hu; exact hu
  | succ fuel ih =>
      intro ttl s hs hd hu
      by_cases hdn : s.done = true
      · have harr : runHops cfg env (fuel + 1) ttl s = s := by
          show (if s.done then s else _) = s
          rw [if_pos hdn]
        rw [harr]
        exact hu
      · have hdnf : s.done = false := by revert hdn; cases s.done <;> simp
        have harr : runHops cfg env (fuel + 1) ttl s =
            runHops cfg env fuel (ttl + 1) (runHop cfg env ttl s) := by
          show (if s.done then s else _) = _
          rw [hdnf]
          simp
        rw [harr]
        have hanyf : s.recs.any unreachRec = false := by rw [← hd]; exact hdnf
        have hnone : ∀ r ∈ s.recs, unreachRec r = false := by
          intro r hr
          have := List.any_eq_false.mp hanyf r hr
          revert this
          cases unreachRec r <;> simp
        obtain ⟨new, hn1, hn2, hn3, hn4⟩ := runHop_shape cfg env ttl s
        have hd1 : (runHop cfg env ttl s).done = (runHop cfg env ttl s).recs.any unreachRec := by
          rw [hn4, hn1, List.any_append, hanyf, hdnf]
        have hs1 : ∀ r ∈ (runHop cfg env ttl s).recs, r.ttl < ttl + 1 := by
          rw [hn1]
          intro r hr
          rcases List.mem_append.mp hr with h | h
          · have := hs r h; omega
          · have := hn3 r h; omega
        have hu1 : ∀ t : Int, (∃ r ∈ (runHop cfg env ttl s).recs, r.ttl = t ∧ unreachRec r = true) →
            ∀ r2 ∈ (runHop cfg env ttl s).recs, r2.ttl ≤ t := by
          rintro t ⟨r, hr, hrt, hru⟩ r2 hr2
          rw [hn1] at hr hr2
          rcases List.mem_append.mp hr with h | h
          · rw [hnone r h] at hru
            exact absurd hru Bool.false_ne_true
          · have hteq : t = ttl := by have := hn3 r h; omega
            rcases List.mem_append.mp hr2 with h2 | h2
            · have := hs r2 h2; omega
            · have := hn3 r2 h2; omega
        exact ih (ttl + 1) (runHop cfg env ttl s) hs1 hd1 hu1

/-! ## Pointwise facts holding of every recorded attempt -/

/-- Properties every attempt record produced by the loop satisfies:
the only timer ever started is the fixed `probeTimeout`-second one; the
router identity is printed exactly for a response on the hop's first
probe; and no attempt ever closes its socket. -/
def recInvariant (r : ProbeRec) : Prop :=
  (r.waited = none ∨ r.waited = some probeTimeout) ∧
  (∀ info, r.outcome = .response info →
      r.printedRouter = if r.pro = 0 then some (printRouterIP info) else none) ∧
  r.closed = false

theorem probeRec_invariant (oc : Outcome) (ttl : Int) (pro : Nat) (p q : Int) :
    recInvariant (probeRec oc ttl pro p q) := by
  cases oc with
  | connectError =>
      refine ⟨Or.inl rfl, ?_, rfl⟩
      intro info h
      exact absurd h (by simp [probeRec])
  | sendError =>
      refine ⟨Or.inl rfl, ?_, rfl⟩
      intro info h
      exact absurd h (by simp [probeRec])
  | timeout =>
      refine ⟨Or.inr rfl, ?_, rfl⟩
      intro info h
      exact absurd h (by simp [probeRec])
  | response info0 =>
      refine ⟨Or.inr rfl, ?_, rfl⟩
      intro info h
      have h2 : Outcome.response info0 = Outcome.response info := h
      injection h2 with h3
      rw [← h3]
      rfl

theorem runProbe_invariant (env : Nat → Outcome) (ttl : Int) (pro : Nat) (s : TState)
    (h : ∀ r ∈ s.recs, recInvariant r) :
    ∀ r ∈ (runProbe env ttl pro s).recs, recInvariant r := by
  intro r hr
  rw [runProbe_recs] at hr
  rcases List.mem_append.mp hr with h1 | h1
  · exact h r h1
  · rw [List.mem_singleton.mp h1]
    exact probeRec_invariant (env s.attempt) ttl pro s.port s.seqNum

theorem runProbes_invariant (env : Nat → Outcome) (ttl : Int) :
    ∀ (n pro : Nat) (s : TState), (∀ r ∈ s.recs, recInvariant r) →
      ∀ r ∈ (runProbes env ttl n pro s).recs, recInvariant r := by
  intro n
  induction n with
  | zero => intro pro s h; exact h
  | succ n ih =>
      intro pro s h
      exact ih (pro + 1) (runProbe env ttl pro s) (runProbe_invariant env ttl pro s h)

theorem runHops_invariant (cfg : TraceConfig) (env : Nat → Outcome) :
    ∀ (fuel : Nat) (ttl : Int) (s : TState), (∀ r ∈ s.recs, recInvariant r) →
      ∀ r ∈ (runHops cfg env fuel ttl s).recs, recInvariant r := by
  intro fuel
  induction fuel with
  | zero => intro ttl s h; exact h
  | succ fuel ih =>
      intro ttl s h
      show ∀ r ∈ (if s.done then s
          else runHops cfg env fuel (ttl + 1) (runHop cfg env ttl s)).recs, recInvariant r
      by_cases hdn : s.done = true
      · rw [if_pos hdn]; exact h
      · rw [if_neg hdn]
        exact ih (ttl + 1) (runHop cfg env ttl s)
          (runProbes_invariant env ttl cfg.probesPerHop.toNat 0 s h)

theorem startTrace_invariant (cfg : TraceConfig) (env : Nat → Outcome) :
    ∀ r ∈ (startTrace cfg env).recs, recInvariant r :=
  runHops_invariant cfg env (cfg.maxHops - cfg.startTTL + 1).toNat cfg.startTTL
    (initState cfg) (by intro r hr; cases hr)

/-! ## The claims -/

set_option maxRecDepth 40000

/-- C1, counterexample: with two probes per hop, hop 1's first probe
timing out and its second probe receiving a response, some probe of the
hop receives a response within the timeout, yet no responder identity is
ever recorded or emitted for the hop header — refuting the claim that the
identity is emitted on the first successful response of the hop
*regardless of which probe of the hop it was*. -/
theorem claim1_counterexample :
    (startTrace cfgC1 envC1).recs.any isResponse = true ∧
    ∀ r ∈ (startTrace cfgC1 envC1).recs, r.printedRouter = none := by
  decide

/-- C1, amended: the responder identity (name if resolved, else address)
is recorded and emitted for the hop header exactly when the hop's FIRST
probe (probe index 0) itself receives a response within the timeout;
responses to later probes of the hop never emit the hop-header identity. -/
theorem claim1_header_on_first_probe_only (cfg : TraceConfig) (env : Nat → Outcome)
    (r : ProbeRec) (hr : r ∈ (startTrace cfg env).recs) (info : probeInfo)
    (ho : r.outcome = .response info) :
    r.printedRouter = if r.pro = 0 then some (printRouterIP info) else none :=
  (startTrace_invariant cfg env r hr).2.1 info ho

/-- C1, witness: a one-probe run whose first probe is answered by
10.0.0.1; the responder identity is emitted for the hop header. -/
theorem claim1_witness :
    (recRespW ∈ (startTrace cfgOne envHopReply).recs ∧
      recRespW.outcome = .response infoHop) ∧
    recRespW.printedRouter =
      if recRespW.pro = 0 then some (printRouterIP infoHop) else none :=
  ⟨⟨by decide, by decide⟩,
   claim1_header_on_first_probe_only cfgOne envHopReply recRespW (by decide) infoHop
     (by decide)⟩

/-- C2: across any run, the destination ports consumed by the probes (in
order of sending) are exactly `basePort, basePort + 1, basePort + 2, ...`:
the Nth probe overall (counting from 0) is sent to `basePort + N`, the
ports are strictly monotonically increasing by 1 per probe across the
entire run (not reset per hop), and no port is ever reused. -/
theorem claim2_probe_ports (cfg : TraceConfig) (env : Nat → Outcome) :
    sentPorts (startTrace cfg env).recs =
      (List.range (sentPorts (startTrace cfg env).recs).length).map
        (fun i : Nat => cfg.basePort + (i : Int)) ∧
    List.Pairwise (fun x y => x < y) (sentPorts (startTrace cfg env).recs) := by
  have hx : PortSeqExtend (initState cfg) (startTrace cfg env) :=
    portSeqExtend_runHops cfg env (cfg.maxHops - cfg.startTTL + 1).toNat cfg.startTTL
      (initState cfg)
  obtain ⟨new, k, h1, h2, h3, h4, h5⟩ := hx
  have hrecs : (startTrace cfg env).recs = new := by simpa [initState] using h1
  have h2b : sentPorts (startTrace cfg env).recs =
      (List.range k).map (fun i : Nat => cfg.basePort + (i : Int)) := by
    rw [hrecs]
    simpa [initState] using h2
  have hlen : (sentPorts (startTrace cfg env).recs).length = k := by
    rw [h2b]
    simp
  constructor
  · rw [hlen]
    exact h2b
  · rw [h2b]
    exact pairwise_lt_range_map cfg.basePort k

/-- C3: the code never closes a probe's UDP socket — `startTrace` and
`connectUDP` contain no `Close` call — so in a two-probe run two sockets
are opened (one per sent probe) and zero are ever closed: at the end of
the run two probe sockets are simultaneously unreleased, refuting
"at most one probe UDP socket open, none leaked". -/
theorem claim3_sockets_never_closed :
    ((startTrace cfgC3 envAllTimeout).recs.filter (fun r => r.sentPort.isSome)).length = 2 ∧
    ((startTrace cfgC3 envAllTimeout).recs.filter (fun r => r.closed)).length = 0 ∧
    (startTrace cfgC3 envAllTimeout).recs.all (fun r => !r.closed) = true := by
  decide

/-- C4: decoding a malformed 10-byte datagram does NOT yield a decode
failure the caller can log and discard.  Called directly on the short
slice, `newProbeInfo` hits an index-out-of-range panic (modelled as
`none`), which crashes the program; called the way `listenICMP` actually
calls it — on the full zero-initialised 1024-byte read buffer — the short
datagram is decoded "successfully" into a spurious response with source
0.0.0.0 and ICMP type 0 code 0 that is delivered to the controller as a
genuine response instead of being discarded. -/
theorem claim4_no_decode_failure :
    newProbeInfo noLookup shortDgram = none ∧
    newProbeInfo noLookup (icmpReadBuffer shortDgram) =
      some { routerIP := ⟨0, 0, 0, 0⟩, routerName := "", icmpType := 0, icmpCode := 0 } := by
  decide

/-- C5: whenever some probe at TTL `t` receives a port-unreachable
response (ICMP type 3 code 3), the controller still performs all
`probesPerHop` probes of hop `t`, and no probe is ever issued at any
TTL strictly greater than `t`. -/
theorem claim5_port_unreachable_stops (cfg : TraceConfig) (env : Nat → Outcome) (t : Int)
    (h : ∃ r ∈ (startTrace cfg env).recs, r.ttl = t ∧ unreachRec r = true) :
    countTTL (startTrace cfg env).recs t = cfg.probesPerHop.toNat ∧
    ∀ r2 ∈ (startTrace cfg env).recs, r2.ttl ≤ t := by
  have hstop : ∀ u : Int,
      (∃ r ∈ (startTrace cfg env).recs, r.ttl = u ∧ unreachRec r = true) →
      ∀ r2 ∈ (startTrace cfg env).recs, r2.ttl ≤ u :=
    runHops_stop cfg env (cfg.maxHops - cfg.startTTL + 1).toNat cfg.startTTL (initState cfg)
      (by intro r hr; cases hr) rfl
      (by intro u hu r2 hr2; cases hr2)
  refine ⟨?_, hstop t h⟩
  obtain ⟨ext, he1, he2⟩ :
      ∃ ext, (startTrace cfg env).recs = (initState cfg).recs ++ ext ∧
        ∀ r ∈ ext, cfg.startTTL ≤ r.ttl ∧
          r.ttl < cfg.startTTL + (((cfg.maxHops - cfg.startTTL + 1).toNat : Nat) : Int) :=
    runHops_recsBound cfg env (cfg.maxHops - cfg.startTTL + 1).toNat cfg.startTTL
      (initState cfg)
  obtain ⟨r, hr, hrt, hru⟩ := h
  have hrext : r ∈ ext := by
    rw [he1] at hr
    simpa [initState] using hr
  have hb := he2 r hrext
  have hcnt : countTTL (startTrace cfg env).recs t =
      if doneBefore (startTrace cfg env).recs t then 0 else cfg.probesPerHop.toNat :=
    runHops_count cfg env (cfg.maxHops - cfg.startTTL + 1).toNat cfg.startTTL (initState cfg)
      (by intro r2 hr2; cases hr2) rfl t (by omega) (by omega)
  have hdbf : doneBefore (startTrace cfg env).recs t = false := by
    apply doneBefore_eq_false
    intro r2 hr2 hcon
    obtain ⟨hlt2, hur2⟩ := hcon
    have := hstop r2.ttl ⟨r2, hr2, rfl, hur2⟩ r hr
    omega
  rw [hcnt, hdbf]
  simp

/-- C5, witness: the spec's scenario — one probe per hop, `maxHops = 3`,
every probe answered port-unreachable by 10.0.0.1: hop 1 performs its
single probe and no probe is issued at TTL 2 or 3. -/
theorem claim5_witness :
    (∃ r ∈ (startTrace cfgScenario envAllUnreach).recs, r.ttl = 1 ∧ unreachRec r = true) ∧
    (countTTL (startTrace cfgScenario envAllUnreach).recs 1 =
        cfgScenario.probesPerHop.toNat ∧
      ∀ r2 ∈ (startTrace cfgScenario envAllUnreach).recs, r2.ttl ≤ 1) :=
  ⟨by decide, claim5_port_unreachable_stops cfgScenario envAllUnreach 1 (by decide)⟩

/-- C6: for every TTL `t` in `[startTTL, maxHops]` the controller makes
exactly `probesPerHop` probe attempts at `t`, unless a port-unreachable
response was received at some strictly earlier TTL, in which case it makes
none at `t`. -/
theorem claim6_probes_per_hop (cfg : TraceConfig) (env : Nat → Outcome) (t : Int)
    (h1 : cfg.startTTL ≤ t) (h2 : t ≤ cfg.maxHops) :
    countTTL (startTrace cfg env).recs t =
      if doneBefore (startTrace cfg env).recs t then 0 else cfg.probesPerHop.toNat :=
  runHops_count cfg env (cfg.maxHops - cfg.startTTL + 1).toNat cfg.startTTL (initState cfg)
    (by intro r hr; cases hr) rfl t h1 (by omega)

/-- C6, witness: two hops of two probes, everything timing out — at TTL 2,
within `[1, 2]`, exactly 2 probe attempts are made. -/
theorem claim6_witness :
    (cfgTwoHops.startTTL ≤ 2 ∧ (2 : Int) ≤ cfgTwoHops.maxHops) ∧
    countTTL (startTrace cfgTwoHops envAllTimeout).recs 2 =
      if doneBefore (startTrace cfgTwoHops envAllTimeout).recs 2 then 0
      else cfgTwoHops.probesPerHop.toNat :=
  ⟨⟨by decide, by decide⟩,
   claim6_probes_per_hop cfgTwoHops envAllTimeout 2 (by decide) (by decide)⟩

/-- C7: decoding a raw datagram of at least 22 bytes carrying a known
IPv4 source address at bytes 12-15 and known ICMP type and code at bytes
20 and 21 recovers exactly that source address, type and code. -/
theorem claim7_decode_roundtrip (lookup : String → List String) (buf : List Nat)
    (a b c d t co : Nat) (h : 22 ≤ buf.length)
    (h12 : buf.get? 12 = some a) (h13 : buf.get? 13 = some b)
    (h14 : buf.get? 14 = some c) (h15 : buf.get? 15 = some d)
    (h20 : buf.get? 20 = some t) (h21 : buf.get? 21 = some co) :
    ∃ info, newProbeInfo lookup buf = some info ∧
      info.routerIP = ⟨a, b, c, d⟩ ∧ info.icmpType = t ∧ info.icmpCode = co := by
  have e12 : buf.get ⟨12, by omega⟩ = a :=
    Option.some.inj ((List.get?_eq_get (by omega)).symm.trans h12)
  have e13 : buf.get ⟨13, by omega⟩ = b :=
    Option.some.inj ((List.get?_eq_get (by omega)).symm.trans h13)
  have e14 : buf.get ⟨14, by omega⟩ = c :=
    Option.some.inj ((List.get?_eq_get (by omega)).symm.trans h14)
  have e15 : buf.get ⟨15, by omega⟩ = d :=
    Option.some.inj ((List.get?_eq_get (by omega)).symm.trans h15)
  have e20 : buf.get ⟨20, by omega⟩ = t :=
    Option.some.inj ((List.get?_eq_get (by omega)).symm.trans h20)
  have e21 : buf.get ⟨21, by omega⟩ = co :=
    Option.some.inj ((List.get?_eq_get (by omega)).symm.trans h21)
  refine ⟨{ routerIP := ⟨a, b, c, d⟩,
            routerName := match lookup (ipString ⟨a, b, c, d⟩) with
                          | [] => ""
                          | n :: _ => n,
            icmpType := t, icmpCode := co }, ?_, rfl, rfl, rfl⟩
  unfold newProbeInfo
  rw [dif_pos h]
  simp only [e12, e13, e14, e15, e20, e21]

/-- C7, witness: a concrete 22-byte datagram with source 172.16.5.9 and
ICMP type 11 code 0 decodes back to exactly those values. -/
theorem claim7_witness :
    (22 ≤ dgram22.length ∧ dgram22.get? 12 = some 172 ∧ dgram22.get? 13 = some 16 ∧
      dgram22.get? 14 = some 5 ∧ dgram22.get? 15 = some 9 ∧
      dgram22.get? 20 = some 11 ∧ dgram22.get? 21 = some 0) ∧
    ∃ info, newProbeInfo noLookup dgram22 = some info ∧
      info.routerIP = ⟨172, 16, 5, 9⟩ ∧ info.icmpType = 11 ∧ info.icmpCode = 0 :=
  ⟨⟨by decide, by decide, by decide, by decide, by decide, by decide, by decide⟩,
   claim7_decode_roundtrip noLookup dgram22 172 16 5 9 11 0 (by decide) (by decide)
     (by decide) (by decide) (by decide) (by decide) (by decide)⟩

/-- C8: across any run, the sequence numbers carried by the built-and-sent
probes are `1, 2, 3, ...` in order — in particular strictly increasing
across the entire run. -/
theorem claim8_seq_increasing (cfg : TraceConfig) (env : Nat → Outcome) :
    builtSeqs (startTrace cfg env).recs =
      (List.range (builtSeqs (startTrace cfg env).recs).length).map
        (fun i : Nat => 1 + (i : Int)) ∧
    List.Pairwise (fun x y => x < y) (builtSeqs (startTrace cfg env).recs) := by
  have hx : PortSeqExtend (initState cfg) (startTrace cfg env) :=
    portSeqExtend_runHops cfg env (cfg.maxHops - cfg.startTTL + 1).toNat cfg.startTTL
      (initState cfg)
  obtain ⟨new, k, h1, h2, h3, h4, h5⟩ := hx
  have hrecs : (startTrace cfg env).recs = new := by simpa [initState] using h1
  have h3b : builtSeqs (startTrace cfg env).recs =
      (List.range k).map (fun i : Nat => 1 + (i : Int)) := by
    rw [hrecs]
    simpa [initState] using h3
  have hlen : (builtSeqs (startTrace cfg env).recs).length = k := by
    rw [h3b]
    simp
  constructor
  · rw [hlen]
    exact h3b
  · rw [h3b]
    exact pairwise_lt_range_map 1 k

/-- C9: the probe payload is a 16-byte constant — bytes 0-4 are
1,2,3,4,5 and the remaining 11 bytes are zero — identical for any two
probes whatever their sequence number, TTL and timestamp: the payload
depends on no field of the probe. -/
theorem claim9_constant_payload (d1 d2 : tracePacket) :
    getTracePacketData d1 = getTracePacketData d2 ∧
    getTracePacketData d1 = [1, 2, 3, 4, 5, 0, 0, 0, 0, 0, 0, 0, 0, 0, 0, 0] :=
  ⟨rfl, rfl⟩

/-- C10: the per-probe timeout is the fixed constant of 5 seconds for
every probe that waits, in every run under every configuration: the
configuration surface (`-d -f -m -p -q`) has no timeout option and the
timer duration never varies. -/
theorem claim10_fixed_timeout :
    probeTimeout = 5 ∧
    ∀ (cfg : TraceConfig) (env : Nat → Outcome) (r : ProbeRec),
      r ∈ (startTrace cfg env).recs →
      r.waited = none ∨ r.waited = some probeTimeout :=
  ⟨rfl, fun cfg env r hr => (startTrace_invariant cfg env r hr).1⟩

/-- C10, witness: the single timed-out probe of a one-probe run waited on
the 5-second timer. -/
theorem claim10_witness :
    recTimeoutW ∈ (startTrace cfgOne envAllTimeout).recs ∧
    (recTimeoutW.waited = none ∨ recTimeoutW.waited = some probeTimeout) :=
  ⟨by decide, claim10_fixed_timeout.2 cfgOne envAllTimeout recTimeoutW (by decide)⟩
